import Mathlib

/-!
Shallow embedding of the authentication backend's core components
(snowflake identifier generator, paseto-based token verification,
TOTP engine with backup codes, and the basic-auth login flow),
together with theorems settling the specification claims.

Machine integers are modelled as `Nat` with explicit reduction
modulo `2 ^ 64` where Rust `u64` overflow semantics matter.
Fallible Rust code returns `Except`; a Rust panic is modelled as
`Option.none` in an `Option`-wrapped result.
-/

namespace Auth

/-- Decidable equality for `Except`, needed to evaluate embedded results. -/
instance {e a : Type} [DecidableEq e] [DecidableEq a] : DecidableEq (Except e a)
  | .error x, .error y =>
    if h : x = y then .isTrue (by rw [h])
    else .isFalse (fun hc => h (Except.error.inj hc))
  | .error _, .ok _ => .isFalse (fun hc => Except.noConfusion hc)
  | .ok _, .error _ => .isFalse (fun hc => Except.noConfusion hc)
  | .ok x, .ok y =>
    if h : x = y then .isTrue (by rw [h])
    else .isFalse (fun hc => h (Except.ok.inj hc))

/-! ### Snowflake identifiers (`src/crypto/src/snowflake.rs`) -/

def U64 : Nat := 2 ^ 64

def SNOWFLAKE_EPOCH : Nat := 1683992570782

def WORKER_ID_BITS : Nat := 5
def PROCESS_ID_BITS : Nat := 5
def SEQUENCE_BITS : Nat := 12

def MAX_WORKER_ID : Nat := (1 <<< WORKER_ID_BITS) - 1
def MAX_PROCESS_ID : Nat := (1 <<< PROCESS_ID_BITS) - 1
def MAX_SEQUENCE : Nat := (1 <<< SEQUENCE_BITS) - 1

inductive SnowflakeError where
  | invalidInput
  | invalidSequenceId
  | invalidWorkerId
  | invalidProcessId
  | invalidTimestamp
  deriving DecidableEq, Repr

/-- `Snowflake::from_components`: `(timestamp << 22) | (worker_id << 17) |
(process_id << 12) | sequence`, every operation on `u64`. -/
def from_components (t w p s : Nat) : Nat :=
  ((t % U64 * 2 ^ 22) % U64) ||| ((w % U64 * 2 ^ 17) % U64) |||
    ((p % U64 * 2 ^ 12) % U64) ||| (s % U64)

/-- `Snowflake::timestamp`: `(id >> 22) & ((1 << 41) - 1)`. -/
def timestampOf (id : Nat) : Nat :=
  (id >>> 22) &&& ((1 <<< 41) - 1)

/-- `Snowflake::worker_id`: `(id >> 17) & ((1 << 5) - 1)`. -/
def workerIdOf (id : Nat) : Nat :=
  (id >>> 17) &&& ((1 <<< WORKER_ID_BITS) - 1)

/-- `Snowflake::process_id`: `(id >> 12) & ((1 << 5) - 1)`. -/
def processIdOf (id : Nat) : Nat :=
  (id >>> 12) &&& ((1 <<< PROCESS_ID_BITS) - 1)

/-- `Snowflake::sequence`: `id & ((1 << 12) - 1)`. -/
def sequenceOf (id : Nat) : Nat :=
  id &&& ((1 <<< SEQUENCE_BITS) - 1)

/-- Reinterpretation of a `u64` bit pattern as an `i64` (Rust `as i64`). -/
def u64ToI64 (n : Nat) : Int :=
  if n % U64 < 2 ^ 63 then ((n % U64 : Nat) : Int)
  else ((n % U64 : Nat) : Int) - (U64 : Int)

/-- `Snowflake::to_id_signed`: asserts `self.timestamp() < 1 << 41` and then
returns `self.to_id() as i64`.  A failed assertion is a panic, modelled as
`none`. -/
def to_id_signed (id : Nat) : Option Int :=
  if timestampOf id < 1 <<< 41 then some (u64ToI64 id) else none

/-- `Snowflake::validate_id`, with the wall clock (`Utc::now().timestamp_millis()`)
passed explicitly as `now`. -/
def validate_id (id now : Nat) : Except SnowflakeError Unit :=
  if timestampOf id + SNOWFLAKE_EPOCH > now then .error .invalidTimestamp
  else if workerIdOf id > MAX_WORKER_ID then .error .invalidWorkerId
  else if processIdOf id > MAX_PROCESS_ID then .error .invalidProcessId
  else if sequenceOf id > MAX_SEQUENCE then .error .invalidSequenceId
  else .ok ()

/-- Rust `str::parse::<u64>`: an optional leading `+`, then one or more
decimal digits, rejecting the empty string, other characters, and values
that overflow `u64`. -/
def parse_u64 (s : String) : Option Nat :=
  let cs := match s.data with
    | '+' :: rest => rest
    | cs => cs
  if cs.isEmpty then none
  else if cs.all Char.isDigit then
    let v := cs.foldl (fun acc c => acc * 10 + (c.toNat - 48)) 0
    if v < U64 then some v else none
  else none

/-- `Snowflake::from_str`: parse the decimal string as `u64`, then
`validate_id` against the current clock. -/
def from_str (s : String) (now : Nat) : Except SnowflakeError Nat :=
  match parse_u64 s with
  | none => .error .invalidInput
  | some id =>
    match validate_id id now with
    | .error e => .error e
    | .ok _ => .ok id

/-- `TryFrom<u64> for Snowflake`: `validate_id` then wrap. -/
def try_from_u64 (id now : Nat) : Except SnowflakeError Nat :=
  match validate_id id now with
  | .error e => .error e
  | .ok _ => .ok id

/-- Mutable state of a `SnowflakeGenerator`: the `last_timestamp` mutex
contents and the atomic `sequence` counter. -/
structure GenState where
  lastTimestamp : Nat
  sequence : Nat
  deriving DecidableEq, Repr

/-- `SnowflakeGenerator::next_snowflake`, single-threaded semantics.
`t` is the first wall-clock reading (`SystemTime::now` minus the epoch);
`tspin` is the reading obtained once the busy-wait loop (entered only when
the previous sequence value exceeded `MAX_SEQUENCE`) observes a timestamp
greater than `last_timestamp`.  Note the source increments the sequence with
`fetch_add` (which returns the previous value), re-loads it afterwards, and
resets it to zero only in the branch where the first reading already
differs from `last_timestamp`. -/
def next_snowflake (w p : Nat) (st : GenState) (t tspin : Nat) :
    GenState × Nat :=
  if t = st.lastTimestamp then
    let old := st.sequence
    let seqNew := st.sequence + 1
    if old > MAX_SEQUENCE then
      (⟨tspin, seqNew⟩, from_components tspin w p seqNew)
    else
      (⟨t, seqNew⟩, from_components t w p seqNew)
  else
    (⟨t, 0⟩, from_components t w p 0)

/-- Iterate `next_snowflake` with every wall-clock reading equal to `t`
(all calls within one millisecond), keeping only the generator state. -/
def run_same_ms (w p : Nat) (st : GenState) (t : Nat) : Nat → GenState
  | 0 => st
  | n + 1 => run_same_ms w p (next_snowflake w p st t t).1 t n

/-! ### Paseto token verification
(`src/misc/crypto/src/tokens/paseto.rs`, `src/services/authcore/src/core/token.rs`) -/

/-- `crypto::tokens::paseto::Error` (`src/misc/crypto/src/tokens/paseto.rs`). -/
inductive PasetoErr where
  | pasetoBuilderError
  | pasetoClaimError
  | pasetoParserError
  | serdeError
  | invalidToken
  deriving DecidableEq, BEq, Repr

/-- `OwnedClaims` of `paseto.rs`; timestamps carried as integer milliseconds,
the typed extension payload is not needed by the verified paths. -/
structure OwnedClaims where
  issuer : String
  expiration : Int
  not_before : Int
  subject : Option String
  audience : Option String
  token_id : String
  deriving DecidableEq, BEq, Repr

/-- `ModelError` (`src/services/authcore/src/models/error.rs` /
`models/user/token.rs`). -/
inductive ModelError where
  | databaseError
  | notFound
  | missingField (field : String)
  deriving DecidableEq, BEq, Repr

/-- Prisma enum `UserTokenType`. -/
inductive UserTokenType where
  | refresh
  | totpFlow
  | emailVerification
  deriving DecidableEq, BEq, Repr

/-- Persisted `user_token` row as surfaced by the `UserToken` model. -/
structure UserTokenRec where
  id : Int
  user_id : Int
  token_type : UserTokenType
  token : String
  expires_at : Int
  deriving DecidableEq, BEq, Repr

/-- `RefreshTokenError` (`src/services/authcore/src/core/token.rs`). -/
inductive RefreshTokenError where
  | invalidToken
  | tokenExpired
  | tokenRevoked
  | pasetoError (e : PasetoErr)
  | internalDatabaseError (e : ModelError)
  | queryError
  deriving DecidableEq, BEq, Repr

/-- `AccessTokenError` (`src/services/authcore/src/core/token.rs`). -/
inductive AccessTokenError where
  | pasetoError (e : PasetoErr)
  deriving DecidableEq, BEq, Repr

/-- `UserToken::get` (`src/services/authcore/src/models/user/token.rs`):
`find_first` on the filters `token = token`, `token_type = token_type`,
`user_id = user_id.to_id_signed()`; a missing row becomes
`ModelError::NotFound`.  (`to_id_signed` never panics, see
`C7_to_id_signed_assertion_vacuous`, so the total `u64ToI64` is used.) -/
def UserToken.get (db : List UserTokenRec) (user_id : Nat) (token : String)
    (token_type : UserTokenType) : Except ModelError UserTokenRec :=
  match db.find? (fun r =>
      r.token == token && r.token_type == token_type &&
      r.user_id == u64ToI64 user_id) with
  | none => .error .notFound
  | some r => .ok r

/-- `paseto::validate_token`.  The third-party `rusty_paseto` parse/decrypt
step (the cryptographic check, external to this repository) is abstracted as
`parse`; the wrapper propagates its result, the subsequent serde re-parse of
well-formed claims being the identity. -/
def validate_token (parse : String → Except PasetoErr OwnedClaims)
    (token : String) : Except PasetoErr OwnedClaims :=
  parse token

/-- `verify_access_token` (`src/services/authcore/src/core/token.rs`): just
`paseto::validate_token`, with the error wrapped; no database access. -/
def verify_access_token (parse : String → Except PasetoErr OwnedClaims)
    (token : String) : Except AccessTokenError OwnedClaims :=
  match validate_token parse token with
  | .error e => .error (.pasetoError e)
  | .ok claims => .ok claims

/-- `verify_refresh_token` (`src/services/authcore/src/core/token.rs`):
paseto validation, then `UserToken::get` (whose error is propagated by `?`
through the `#[from] ModelError` conversion into `InternalDatabaseError`),
then the record-expiry check.  `now_ms` is the wall clock used by the
snowflake conversion of the subject claim, `now` the one compared with
`expires_at`.  The `unwrap()` calls on the subject conversion are panics,
modelled as `none`. -/
def verify_refresh_token (parse : String → Except PasetoErr OwnedClaims)
    (db : List UserTokenRec) (token : String) (now_ms : Nat) (now : Int) :
    Option (Except RefreshTokenError UserTokenRec) :=
  match validate_token parse token with
  | .error e => some (.error (.pasetoError e))
  | .ok claims =>
    match claims.subject with
    | none => none
    | some sub =>
      match from_str sub now_ms with
      | .error _ => none
      | .ok uid =>
        match UserToken.get db uid claims.token_id .refresh with
        | .error e => some (.error (.internalDatabaseError e))
        | .ok tok =>
          if tok.expires_at < now then some (.error .tokenExpired)
          else some (.ok tok)

/-! ### Basic-auth login (`src/services/authcore/src/core/basic/login.rs`) -/

/-- The password-credential row consulted by the login flow. -/
structure BasicAuthRec where
  password_hash : String
  deriving DecidableEq, BEq, Repr

/-- The slice of the `User` model the login flow reads: the optional
password credential and whether a TOTP second factor is configured. -/
structure LoginUser where
  id : Nat
  basic_auth : Option BasicAuthRec
  totp : Option Unit
  deriving DecidableEq, BEq, Repr

/-- `BasicLoginError` (`src/services/authcore/src/core/basic/login.rs`). -/
inductive BasicLoginError where
  | invalidEmailAddressFormat
  | applicationDoesNotExist
  | wrongCredentials
  | wrong2FA
  | notFound
  | queryError
  | needFurtherVerificationThrough2FA (user : LoginUser)
  | unknown
  deriving DecidableEq, BEq, Repr

/-- `with_basic_auth` (`src/services/authcore/src/core/basic/login.rs`).
The database lookups are passed as their results (`appLookup` for
`ReplicatedApplication::get`, `userLookup` for `User::find_by_email`), the
external argon2 check `crypto::password::verify_password` as the boolean
`verify_password` (`true` = `Ok`), the TOTP check as `totpVerify`, and the
final last-login update as `update_ok`. -/
def with_basic_auth (appLookup : Except ModelError Unit)
    (userLookup : Except ModelError LoginUser)
    (verify_password : String → String → Bool)
    (totpVerify : String → Bool) (update_ok : Bool)
    (password : String) (totp_code : Option String) :
    Except BasicLoginError LoginUser :=
  match appLookup with
  | .error .notFound => .error .applicationDoesNotExist
  | .error _ => .error .unknown
  | .ok _ =>
    match userLookup with
    | .error .notFound => .error .notFound
    | .error _ => .error .unknown
    | .ok user =>
      match user.basic_auth with
      | none => .error .wrongCredentials
      | some auth =>
        if !verify_password password auth.password_hash then
          .error .wrongCredentials
        else
          match user.totp with
          | none => .ok user
          | some _ =>
            match totp_code with
            | some code =>
              if !totpVerify code then .error .wrong2FA
              else if !update_ok then .error .queryError
              else .ok user
            | none => .error (.needFurtherVerificationThrough2FA user)

/-! ### SHA-1 and HMAC-SHA1 (the `sha1`/`hmac` crates as used by
`src/misc/crypto/src/totp.rs`; standard FIPS 180-4 / RFC 2104 algorithms) -/

def M32 : Nat := 2 ^ 32

/-- 32-bit left rotation, for `x < 2^32` and `0 < n < 32`. -/
def rotl32 (x n : Nat) : Nat :=
  ((x <<< n) % M32) ||| (x >>> (32 - n))

/-- Big-endian bytes of a 32-bit word. -/
def toBytesBE4 (w : Nat) : List Nat :=
  [w / 2 ^ 24 % 256, w / 2 ^ 16 % 256, w / 2 ^ 8 % 256, w % 256]

/-- Big-endian bytes of a 64-bit word (`u64::to_be_bytes`). -/
def toBytesBE8 (w : Nat) : List Nat :=
  [w / 2 ^ 56 % 256, w / 2 ^ 48 % 256, w / 2 ^ 40 % 256, w / 2 ^ 32 % 256,
   w / 2 ^ 24 % 256, w / 2 ^ 16 % 256, w / 2 ^ 8 % 256, w % 256]

/-- `u32::from_be_bytes` for byte values below 256. -/
def wordOfBytes (b0 b1 b2 b3 : Nat) : Nat :=
  b0 * 2 ^ 24 + b1 * 2 ^ 16 + b2 * 2 ^ 8 + b3

/-- Merkle–Damgård padding: `0x80`, zeros to 56 mod 64, 64-bit bit length. -/
def sha1pad (msg : List Nat) : List Nat :=
  let l := msg.length
  let z := (119 - l % 64) % 64
  msg ++ [0x80] ++ List.replicate z 0 ++ toBytesBE8 ((l * 8) % U64)

/-- Split a byte list into 64-byte blocks (structural recursion on a fuel
bound so the kernel can evaluate it; `l.length` steps always suffice since
every step consumes at least one element). -/
def chunksAux : Nat → List Nat → List (List Nat)
  | 0, _ => []
  | fuel + 1, l =>
    if l.isEmpty then [] else l.take 64 :: chunksAux fuel (l.drop 64)

/-- Split a byte list into 64-byte blocks. -/
def chunks64 (l : List Nat) : List (List Nat) :=
  chunksAux l.length l

/-- Group bytes into big-endian 32-bit words. -/
def wordsOfBytes : List Nat → List Nat
  | b0 :: b1 :: b2 :: b3 :: rest => wordOfBytes b0 b1 b2 b3 :: wordsOfBytes rest
  | _ => []

/-- Extend the 16-word block schedule by `n` further words
(`w[t] = rotl1 (w[t-3] xor w[t-8] xor w[t-14] xor w[t-16])`). -/
def sha1Extend (ws : List Nat) : Nat → List Nat
  | 0 => ws
  | n + 1 =>
    let v := sha1Extend ws n
    let m := v.length
    v ++ [rotl32 ((v.getD (m - 3) 0) ^^^ (v.getD (m - 8) 0) ^^^
      (v.getD (m - 14) 0) ^^^ (v.getD (m - 16) 0)) 1]

/-- SHA-1 round constant. -/
def sha1K (t : Nat) : Nat :=
  if t < 20 then 0x5A827999
  else if t < 40 then 0x6ED9EBA1
  else if t < 60 then 0x8F1BBCDC
  else 0xCA62C1D6

/-- SHA-1 round boolean function. -/
def sha1F (t b c d : Nat) : Nat :=
  if t < 20 then (b &&& c) ||| ((b ^^^ 0xFFFFFFFF) &&& d)
  else if t < 40 then b ^^^ c ^^^ d
  else if t < 60 then (b &&& c) ||| (b &&& d) ||| (c &&& d)
  else b ^^^ c ^^^ d

/-- SHA-1 working state. -/
structure SHA1State where
  a : Nat
  b : Nat
  c : Nat
  d : Nat
  e : Nat
  deriving DecidableEq, Repr

/-- One SHA-1 round step. -/
def sha1Step (acc : Nat × SHA1State) (w : Nat) : Nat × SHA1State :=
  let t := acc.1
  let s := acc.2
  let temp := (rotl32 s.a 5 + sha1F t s.b s.c s.d + s.e + sha1K t + w) % M32
  (t + 1, ⟨temp, s.a, rotl32 s.b 30, s.c, s.d⟩)

/-- Compress one 64-byte block into the chaining state. -/
def sha1Compress (h : SHA1State) (block : List Nat) : SHA1State :=
  let ws := sha1Extend (wordsOfBytes block) 64
  let f := (ws.foldl sha1Step (0, h)).2
  ⟨(h.a + f.a) % M32, (h.b + f.b) % M32, (h.c + f.c) % M32,
   (h.d + f.d) % M32, (h.e + f.e) % M32⟩

/-- SHA-1 of a byte string, as 20 bytes. -/
def sha1 (msg : List Nat) : List Nat :=
  let init : SHA1State :=
    ⟨0x67452301, 0xEFCDAB89, 0x98BADCFE, 0x10325476, 0xC3D2E1F0⟩
  let f := (chunks64 (sha1pad msg)).foldl sha1Compress init
  toBytesBE4 f.a ++ toBytesBE4 f.b ++ toBytesBE4 f.c ++
    toBytesBE4 f.d ++ toBytesBE4 f.e

/-- HMAC-SHA1 (RFC 2104, block size 64); `Hmac::<Sha1>::new_from_slice`
accepts keys of any length, so this is total. -/
def hmacSha1 (key msg : List Nat) : List Nat :=
  let k0 := if key.length > 64 then sha1 key else key
  let k1 := k0 ++ List.replicate (64 - k0.length) 0
  let ipad := k1.map (fun b => b ^^^ 0x36)
  let opad := k1.map (fun b => b ^^^ 0x5C)
  sha1 (opad ++ sha1 (ipad ++ msg))

/-! ### TOTP engine (`src/misc/crypto/src/totp.rs`) -/

/-- `crypto::totp::Error`: its only variant reports an invalid secret. -/
inductive TotpError where
  | invalidSecret
  deriving DecidableEq, BEq, Repr

/-- Decimal digit characters, most significant first (structural recursion
on a fuel bound so the kernel can evaluate it; `n + 1` steps always
suffice since the argument shrinks at every step). -/
def decDigitsAux : Nat → Nat → List Char
  | 0, _ => []
  | fuel + 1, n =>
    if n < 10 then [Char.ofNat (48 + n)]
    else decDigitsAux fuel (n / 10) ++ [Char.ofNat (48 + n % 10)]

/-- Decimal digit characters of `n`, most significant first. -/
def decDigits (n : Nat) : List Char :=
  decDigitsAux (n + 1) n

/-- Rust `format!("{:06}", n)`: decimal digits left-padded with zeros to
width 6. -/
def format6 (n : Nat) : List Char :=
  List.replicate (6 - (decDigits n).length) '0' ++ decDigits n

/-- `generate_hotp`: HMAC-SHA1 over the big-endian counter, dynamic
truncation (`offset = result[19] & 0xF`, four bytes from `offset`, top bit
masked), reduction modulo 1 000 000, zero-padded to six digits.  The
indexing operations `result[..]` panic when out of bounds, modelled with
`List.get?`; the `InvalidLength` error path of `Hmac::new_from_slice`
cannot occur for HMAC, so there is no error case. -/
def generate_hotp (secret : List Nat) (counter : Nat) :
    Option (List Char) :=
  let result := hmacSha1 secret (toBytesBE8 (counter % U64))
  match result.get? 19 with
  | none => none
  | some last =>
    let offset := last &&& 0xF
    match result.get? offset, result.get? (offset + 1),
        result.get? (offset + 2), result.get? (offset + 3) with
    | some r0, some r1, some r2, some r3 =>
      let truncated := wordOfBytes (r0 &&& 0x7F) r1 r2 r3
      some (format6 (truncated % 1000000))
    | _, _, _, _ => none

/-- The code `generate_hotp` computes, written with total indexing;
`generate_hotp` provably always returns `some` of this. -/
def hotp_code (secret : List Nat) (counter : Nat) : List Char :=
  let result := hmacSha1 secret (toBytesBE8 (counter % U64))
  let offset := (result.getD 19 0) &&& 0xF
  format6 (wordOfBytes ((result.getD offset 0) &&& 0x7F)
    (result.getD (offset + 1) 0) (result.getD (offset + 2) 0)
    (result.getD (offset + 3) 0) % 1000000)

/-- Value of one base32 alphabet character (RFC 4648: `A`–`Z`, `2`–`7`). -/
def b32Val (c : Char) : Option Nat :=
  if 'A' ≤ c ∧ c ≤ 'Z' then some (c.toNat - 65)
  else if '2' ≤ c ∧ c ≤ '7' then some (c.toNat - 50 + 26)
  else none

/-- `k` big-endian bytes of `x`. -/
def bytesOfBits (x k : Nat) : List Nat :=
  (List.range k).map (fun i => x / 2 ^ (8 * (k - 1 - i)) % 256)

/-- `data_encoding::BASE32_NOPAD.decode` (third-party, RFC 4648 without
padding): rejects lengths `≡ 1, 3, 6 (mod 8)`, characters outside the
alphabet, and nonzero trailing bits. -/
def base32_decode (s : List Char) : Option (List Nat) :=
  let n := s.length
  if n % 8 = 1 ∨ n % 8 = 3 ∨ n % 8 = 6 then none
  else
    match s.mapM b32Val with
    | none => none
    | some vs =>
      let bits := vs.foldl (fun acc v => acc * 32 + v) 0
      let nbits := vs.length * 5
      let rem := nbits % 8
      if bits % 2 ^ rem ≠ 0 then none
      else some (bytesOfBits (bits >>> rem) (nbits / 8))

/-- `generate_totp`: base32-decode the secret (`?`, so a decode failure
returns `Err(InvalidSecret)` before any division), then divide the current
Unix time by `interval` — a Rust `u64` division that panics when
`interval = 0` (modelled as `none`) — and call `generate_hotp`. -/
def generate_totp (secret : List Char) (interval : Nat) (now : Nat) :
    Option (Except TotpError (List Char)) :=
  match base32_decode secret with
  | none => some (.error .invalidSecret)
  | some bytes =>
    if interval = 0 then none
    else
      match generate_hotp bytes (now / interval) with
      | none => none
      | some code => some (.ok code)

/-- The inclusive counter window
`(counter.saturating_sub(tolerance))..=(counter + tolerance)`.  The lower
bound is the saturating `u64` subtraction; the upper bound is the `u64`
addition `counter + tolerance`, which wraps modulo `2^64`
(release-build semantics; a debug build would panic on overflow).  A
wrapped upper bound below the lower bound yields an empty range, exactly
as iterating the Rust `RangeInclusive<u64>` does. -/
def totp_window (counter tol : Nat) : List Nat :=
  (List.range ((counter + tol) % U64 + 1 - (counter - tol))).map
    (fun k => (counter - tol) + k)

/-- The comparison loop of `verify_totp`: return `true` on the first
matching expected code. -/
def verify_loop (secret : List Nat) (input : List Char) :
    List Nat → Option Bool
  | [] => some false
  | i :: rest =>
    match generate_hotp secret i with
    | none => none
    | some code => if input = code then some true else verify_loop secret input rest

/-- `verify_totp`: base32-decode the secret, divide the current Unix time
by `interval` (panic on zero, modelled as `none`), default the tolerance to
0, and compare the input against the expected codes of the inclusive
window. -/
def verify_totp (input : List Char) (secret : List Char) (interval : Nat)
    (tolerance : Option Nat) (now : Nat) : Option (Except TotpError Bool) :=
  match base32_decode secret with
  | none => some (.error .invalidSecret)
  | some bytes =>
    if interval = 0 then none
    else
      let counter := now / interval
      let tol := tolerance.getD 0
      match verify_loop bytes input (totp_window counter tol) with
      | none => none
      | some b => some (.ok b)

/-! ### TOTP model with backup codes
(`src/services/authcore/src/models/user/totp.rs`) -/

/-- A `totp_backup_code` row. -/
structure TOTPBackupCode where
  id : Nat
  code : String
  expired : Bool
  deriving DecidableEq, BEq, Repr

/-- The `totp` row of a user. -/
structure TotpRow where
  secret : String
  interval : Nat
  deriving DecidableEq, BEq, Repr

/-- Persisted TOTP state of one user: the optional `totp` row and its
backup-code rows. -/
structure TotpStorage where
  row : Option TotpRow
  codes : List TOTPBackupCode
  deriving DecidableEq, BEq, Repr

/-- The in-memory `TOTP` struct. -/
structure TOTPModel where
  secret : String
  interval : Nat
  totp_backup_codes : List TOTPBackupCode
  deriving DecidableEq, BEq, Repr

/-- `TOTP::get`: `find_first` on the user's `totp` row, fetching only the
backup codes with `expired = false`; absence is `ModelError::NotFound`. -/
def TOTP.get (st : TotpStorage) : Except ModelError TOTPModel :=
  match st.row with
  | none => .error .notFound
  | some r => .ok ⟨r.secret, r.interval, st.codes.filter (fun c => !c.expired)⟩

/-- `TOTP::expire_a_backup_code`: set `expired = true` on the row with the
given id. -/
def expire_a_backup_code (codes : List TOTPBackupCode) (code_id : Nat) :
    List TOTPBackupCode :=
  codes.map (fun c => if c.id = code_id then { c with expired := true } else c)

/-- `TOTP::verify`: a code containing `'-'` is treated as a backup code —
looked up among the fetched (unexpired) codes, rejected if expired, and
otherwise expired in storage with success returned; any other code goes to
`crypto::totp::verify_totp` with tolerance 1, whose `Err` is collapsed to
`false` by `unwrap_or(false)`.  Returns the result together with the
updated backup-code rows. -/
def TOTP.verify (t : TOTPModel) (codes : List TOTPBackupCode)
    (code : String) (now : Nat) : Option (Bool × List TOTPBackupCode) :=
  if code.data.contains '-' then
    match t.totp_backup_codes.find? (fun bc => bc.code == code) with
    | some bc =>
      if bc.expired then some (false, codes)
      else some (true, expire_a_backup_code codes bc.id)
    | none => some (false, codes)
  else
    match verify_totp code.data t.secret.data t.interval (some 1) now with
    | none => none
    | some r => some ((match r with | .ok b => b | .error _ => false), codes)

/-- One verification call as the call sites perform it: load the `TOTP`
via `TOTP::get`, run `TOTP::verify`, persist the updated codes. -/
def verify_call (st : TotpStorage) (code : String) (now : Nat) :
    Option (Except ModelError (Bool × TotpStorage)) :=
  match TOTP.get st with
  | .error e => some (.error e)
  | .ok t =>
    match TOTP.verify t st.codes code now with
    | none => none
    | some (b, codes2) => some (.ok (b, { st with codes := codes2 }))

/-- Every row whose code string is `s` is marked expired. -/
def consumed (db : List TOTPBackupCode) (s : String) : Bool :=
  db.all (fun c => !(c.code == s) || c.expired)

/-! ### Snowflake lemmas -/

theorem timestampOf_lt (id : Nat) : timestampOf id < 1 <<< 41 := by
  have h := Nat.and_le_right (n := id >>> 22) (m := (1 <<< 41) - 1)
  have : (0 : Nat) < 1 <<< 41 := by decide
  unfold timestampOf
  omega

theorem workerIdOf_le (id : Nat) : workerIdOf id ≤ MAX_WORKER_ID :=
  Nat.and_le_right

theorem processIdOf_le (id : Nat) : processIdOf id ≤ MAX_PROCESS_ID :=
  Nat.and_le_right

theorem sequenceOf_le (id : Nat) : sequenceOf id ≤ MAX_SEQUENCE :=
  Nat.and_le_right

/-- The worker/process/sequence range checks inside `validate_id` can never
fail because the accessors mask to exactly the permitted widths; only the
timestamp-versus-clock comparison decides the result. -/
theorem validate_id_eq (id now : Nat) :
    validate_id id now =
      if timestampOf id + SNOWFLAKE_EPOCH > now then .error .invalidTimestamp
      else .ok () := by
  unfold validate_id
  rcases Nat.lt_or_ge now (timestampOf id + SNOWFLAKE_EPOCH) with h | h
  · simp [h]
  · have h1 : ¬ timestampOf id + SNOWFLAKE_EPOCH > now := by omega
    have h2 : ¬ workerIdOf id > MAX_WORKER_ID := by
      have := workerIdOf_le id; omega
    have h3 : ¬ processIdOf id > MAX_PROCESS_ID := by
      have := processIdOf_le id; omega
    have h4 : ¬ sequenceOf id > MAX_SEQUENCE := by
      have := sequenceOf_le id; omega
    simp [h1, h2, h3, h4]

/-- As long as the per-millisecond sequence space is not exhausted, repeated
calls within the same millisecond just count the sequence up. -/
theorem run_same_ms_steady (w p t : Nat) :
    ∀ n k, k + n ≤ MAX_SEQUENCE + 1 →
      run_same_ms w p ⟨t, k⟩ t n = ⟨t, k + n⟩ := by
  intro n
  induction n with
  | zero => intro k _; simp [run_same_ms]
  | succ m ih =>
    intro k hk
    have hkm : ¬ k > MAX_SEQUENCE := by
      simp only [MAX_SEQUENCE] at hk ⊢
      omega
    have hstep : (next_snowflake w p ⟨t, k⟩ t t).1 = ⟨t, k + 1⟩ := by
      simp [next_snowflake, hkm]
    have := ih (k + 1) (by omega)
    calc run_same_ms w p ⟨t, k⟩ t (m + 1)
        = run_same_ms w p (next_snowflake w p ⟨t, k⟩ t t).1 t m := rfl
      _ = run_same_ms w p ⟨t, k + 1⟩ t m := by rw [hstep]
      _ = ⟨t, k + 1 + m⟩ := this
      _ = ⟨t, k + (m + 1)⟩ := by ring_nf

/-! ### Claim theorems: snowflake -/

/-- C3: the monotonicity/reset invariant fails at sequence exhaustion.
After 4096 calls inside millisecond 5 the generator state is
`⟨5, 4095⟩` (reachable, first conjunct).  The 4097th call in the same
millisecond emits the same id as the very first call of that millisecond
(second conjunct): the raw sequence value 4096 overflows into the
process-id bit, so the emitted id has sequence component 0 at an unchanged
timestamp — `a.timestamp = b.timestamp` but `a.sequence = 4095 > 0 =
b.sequence` (third and fourth conjuncts).  Moreover, after the busy-wait
path advances the millisecond, the sequence is not reset to zero: the
emitted id carries sequence component 1 (fifth and sixth conjuncts). -/
theorem C3_sequence_exhaustion_bug :
    run_same_ms 1 1 ⟨0, 0⟩ 5 4096 = ⟨5, 4095⟩ ∧
    (next_snowflake 1 1 ⟨5, 4095⟩ 5 5).2 = (next_snowflake 1 1 ⟨0, 0⟩ 5 5).2 ∧
    sequenceOf (next_snowflake 1 1 ⟨5, 4095⟩ 5 5).2 = 0 ∧
    timestampOf (next_snowflake 1 1 ⟨5, 4095⟩ 5 5).2 = 5 ∧
    (next_snowflake 1 1 ⟨5, 4096⟩ 5 6).2 = from_components 6 1 1 4097 ∧
    sequenceOf (next_snowflake 1 1 ⟨5, 4096⟩ 5 6).2 = 1 := by
  refine ⟨?_, by decide, by decide, by decide, by decide, by decide⟩
  have hstep : run_same_ms 1 1 ⟨0, 0⟩ 5 4096
      = run_same_ms 1 1 ⟨5, 0⟩ 5 4095 := by
    rw [show (4096 : Nat) = 4095 + 1 from rfl]
    rw [run_same_ms]
    have : (next_snowflake 1 1 ⟨0, 0⟩ 5 5).1 = ⟨5, 0⟩ := by decide
    rw [this]
  rw [hstep]
  have := run_same_ms_steady 1 1 5 4095 0 (by decide)
  simpa using this

/-- C7: the assertion in `to_id_signed` compares the timestamp accessor —
which already masks to 41 bits — against `1 << 41`, so it can never fail:
`to_id_signed` never panics and silently reinterprets any id, returning
`-(2^63)` for the id whose top bit is set, while ids with a clear top bit
convert to the numerically equal `i64`. -/
theorem C7_to_id_signed_assertion_vacuous :
    (∀ id : Nat, timestampOf id < 1 <<< 41) ∧
    (∀ id : Nat, to_id_signed id = some (u64ToI64 id)) ∧
    to_id_signed (2 ^ 63) = some (-(2 ^ 63 : Int)) ∧
    (∀ id : Nat, id < 2 ^ 63 → to_id_signed id = some (id : Int)) := by
  refine ⟨timestampOf_lt, ?_, ?_, ?_⟩
  · intro id
    unfold to_id_signed
    rw [if_pos (timestampOf_lt id)]
  · unfold to_id_signed
    rw [if_pos (timestampOf_lt _)]
    decide
  · intro id hid
    have h64 : id % U64 = id := Nat.mod_eq_of_lt (by
      have : (2 : Nat) ^ 63 < U64 := by decide
      omega)
    unfold to_id_signed u64ToI64
    rw [if_pos (timestampOf_lt id)]
    rw [h64, if_pos hid]

/-- Witness for C7 at concrete inputs: id 5 has a clear top bit and converts
to the signed value 5. -/
theorem C7_witness : to_id_signed 5 = some (5 : Int) :=
  C7_to_id_signed_assertion_vacuous.2.2.2 5 (by decide)

/-- C10: a decimal string that parses as a `u64` is accepted by
`Snowflake::from_str` exactly when the embedded timestamp plus the
snowflake epoch does not exceed the clock at the moment of parsing; a
future timestamp is rejected with `InvalidTimestamp` (the remaining
component checks of `validate_id` can never fail), and `TryFrom<u64>`
behaves the same way. -/
theorem C10_parse_depends_on_clock :
    ∀ s id now, parse_u64 s = some id →
      (from_str s now = .ok id ↔ timestampOf id + SNOWFLAKE_EPOCH ≤ now) ∧
      (timestampOf id + SNOWFLAKE_EPOCH > now →
        from_str s now = .error .invalidTimestamp) ∧
      (try_from_u64 id now = .ok id ↔
        timestampOf id + SNOWFLAKE_EPOCH ≤ now) := by
  intro s id now hp
  have hfs : from_str s now =
      (if timestampOf id + SNOWFLAKE_EPOCH > now then
        .error .invalidTimestamp else .ok id) := by
    simp only [from_str, hp, validate_id_eq]
    rcases Nat.lt_or_ge now (timestampOf id + SNOWFLAKE_EPOCH) with h | h
    · simp [h]
    · have h' : ¬ timestampOf id + SNOWFLAKE_EPOCH > now := by omega
      simp [h']
  have htf : try_from_u64 id now =
      (if timestampOf id + SNOWFLAKE_EPOCH > now then
        .error .invalidTimestamp else .ok id) := by
    simp only [try_from_u64, validate_id_eq]
    rcases Nat.lt_or_ge now (timestampOf id + SNOWFLAKE_EPOCH) with h | h
    · simp [h]
    · have h' : ¬ timestampOf id + SNOWFLAKE_EPOCH > now := by omega
      simp [h']
  rcases Nat.lt_or_ge now (timestampOf id + SNOWFLAKE_EPOCH) with h | h
  · have h' : timestampOf id + SNOWFLAKE_EPOCH > now := h
    rw [hfs, htf, if_pos h']
    refine ⟨?_, fun _ => rfl, ?_⟩ <;>
    · constructor
      · intro hc
        exact absurd hc (by simp)
      · intro hle
        omega
  · have h' : ¬ timestampOf id + SNOWFLAKE_EPOCH > now := by omega
    rw [hfs, htf, if_neg h']
    refine ⟨?_, fun hgt => absurd hgt h', ?_⟩ <;>
    · constructor
      · intro hc
        omega
      · intro hle
        rfl

/-- Witness for C10: the id `2^22` (timestamp component 1) parses from its
decimal string exactly at clock `SNOWFLAKE_EPOCH + 1`, and is rejected one
millisecond earlier. -/
theorem C10_witness :
    from_str "4194304" (SNOWFLAKE_EPOCH + 1) = .ok 4194304 ∧
    from_str "4194304" SNOWFLAKE_EPOCH = .error .invalidTimestamp := by
  have hp : parse_u64 "4194304" = some 4194304 := by decide
  constructor
  · exact (C10_parse_depends_on_clock "4194304" 4194304
      (SNOWFLAKE_EPOCH + 1) hp).1.mpr (by decide)
  · exact (C10_parse_depends_on_clock "4194304" 4194304
      SNOWFLAKE_EPOCH hp).2.1 (by decide)

/-! ### Claim theorems: token verification -/

/-- C1, counterexample: a cryptographically valid refresh token whose
persisted record is absent (empty store) fails with
`InternalDatabaseError(NotFound)`, not with `TokenRevoked` as claimed. -/
theorem C1_counterexample :
    verify_refresh_token
      (fun _ => .ok ⟨"AuthCore", 0, 0, some "4194304", none, "42"⟩)
      [] "tok" (SNOWFLAKE_EPOCH + 1) 0
      = some (.error (.internalDatabaseError .notFound)) ∧
    verify_refresh_token
      (fun _ => .ok ⟨"AuthCore", 0, 0, some "4194304", none, "42"⟩)
      [] "tok" (SNOWFLAKE_EPOCH + 1) 0
      ≠ some (.error .tokenRevoked) := by
  constructor
  · decide
  · decide

/-- C1, amended: after successful cryptographic verification,
`verify_refresh_token` does fetch the persisted record and fails when it is
absent — but with `InternalDatabaseError(NotFound)` (the `?`-propagated
`ModelError`), never with `TokenRevoked`, which no path produces; and
`verify_access_token` performs no record check at all: it accepts exactly
when the cryptographic validation succeeds. -/
theorem C1_lookaside_actual_behaviour :
    (∀ parse db token now_ms now claims sub uid,
      parse token = .ok claims → claims.subject = some sub →
      from_str sub now_ms = .ok uid →
      UserToken.get db uid claims.token_id .refresh = .error .notFound →
      verify_refresh_token parse db token now_ms now =
        some (.error (.internalDatabaseError .notFound))) ∧
    (∀ parse db token now_ms now,
      verify_refresh_token parse db token now_ms now ≠
        some (.error .tokenRevoked)) ∧
    (∀ parse token claims,
      verify_access_token parse token = .ok claims ↔
        parse token = .ok claims) := by
  refine ⟨?_, ?_, ?_⟩
  · intro parse db token now_ms now claims sub uid hp hsub hfs hget
    unfold verify_refresh_token validate_token
    rw [hp]
    simp only []
    rw [hsub]
    simp only []
    rw [hfs]
    simp only []
    rw [hget]
  · intro parse db token now_ms now
    unfold verify_refresh_token validate_token
    cases hpt : parse token with
    | error e => simp
    | ok claims =>
      cases hsub : claims.subject with
      | none => simp [hsub]
      | some sub =>
        cases hfs : from_str sub now_ms with
        | error e2 => simp [hsub, hfs]
        | ok uid =>
          cases hget : UserToken.get db uid claims.token_id .refresh with
          | error e3 => simp [hsub, hfs, hget]
          | ok tok =>
            by_cases hexp : tok.expires_at < now <;>
              simp [hsub, hfs, hget, hexp]
  · intro parse token claims
    unfold verify_access_token validate_token
    cases hpt : parse token with
    | error e => simp
    | ok c => simp

/-- Witness for C1 at a concrete input: empty token store, valid claims. -/
theorem C1_witness :
    verify_refresh_token
      (fun _ => .ok ⟨"AuthCore", 0, 0, some "4194304", none, "42"⟩)
      [] "t" (SNOWFLAKE_EPOCH + 1) 0
      = some (.error (.internalDatabaseError .notFound)) :=
  C1_lookaside_actual_behaviour.1 _ [] "t" (SNOWFLAKE_EPOCH + 1) 0
    ⟨"AuthCore", 0, 0, some "4194304", none, "42"⟩ "4194304" 4194304
    rfl rfl (by decide) (by decide)

/-- C2, counterexample: a token whose cryptographic check fails (the
third-party parser reports a parse/authentication error) surfaces as
`PasetoError(PasetoParserError)`, not as the `InvalidToken` variant the
claim names. -/
theorem C2_counterexample :
    verify_refresh_token (fun _ => .error .pasetoParserError) [] "forged" 0 0
      = some (.error (.pasetoError .pasetoParserError)) ∧
    verify_refresh_token (fun _ => .error .pasetoParserError) [] "forged" 0 0
      ≠ some (.error .invalidToken) := by
  constructor
  · decide
  · decide

/-- C2, amended: the expiration check on the stored record
(`expires_at < now`) is indeed a second, independent step performed after
cryptographic validation succeeds, and it alone produces `TokenExpired`
(a non-expired record is accepted); a failed cryptographic check surfaces
as the propagated `PasetoError`, and the distinct `InvalidToken` variant is
never produced on any path. -/
theorem C2_expiry_is_second_step :
    (∀ parse db token now_ms now e, parse token = .error e →
      verify_refresh_token parse db token now_ms now =
        some (.error (.pasetoError e))) ∧
    (∀ parse db token now_ms now claims sub uid tok,
      parse token = .ok claims → claims.subject = some sub →
      from_str sub now_ms = .ok uid →
      UserToken.get db uid claims.token_id .refresh = .ok tok →
      (tok.expires_at < now →
        verify_refresh_token parse db token now_ms now =
          some (.error .tokenExpired)) ∧
      (¬ tok.expires_at < now →
        verify_refresh_token parse db token now_ms now = some (.ok tok))) ∧
    (∀ parse db token now_ms now,
      verify_refresh_token parse db token now_ms now ≠
        some (.error .invalidToken)) := by
  refine ⟨?_, ?_, ?_⟩
  · intro parse db token now_ms now e hp
    unfold verify_refresh_token validate_token
    rw [hp]
  · intro parse db token now_ms now claims sub uid tok hp hsub hfs hget
    constructor
    · intro hexp
      unfold verify_refresh_token validate_token
      rw [hp]
      simp only []
      rw [hsub]
      simp only []
      rw [hfs]
      simp only []
      rw [hget]
      simp [hexp]
    · intro hexp
      unfold verify_refresh_token validate_token
      rw [hp]
      simp only []
      rw [hsub]
      simp only []
      rw [hfs]
      simp only []
      rw [hget]
      simp [hexp]
  · intro parse db token now_ms now
    unfold verify_refresh_token validate_token
    cases hpt : parse token with
    | error e => simp
    | ok claims =>
      cases hsub : claims.subject with
      | none => simp [hsub]
      | some sub =>
        cases hfs : from_str sub now_ms with
        | error e2 => simp [hsub, hfs]
        | ok uid =>
          cases hget : UserToken.get db uid claims.token_id .refresh with
          | error e3 => simp [hsub, hfs, hget]
          | ok tok =>
            by_cases hexp : tok.expires_at < now <;>
              simp [hsub, hfs, hget, hexp]

/-- Witness for C2 at a concrete input: a store holding the matching
record, already expired (`expires_at = -5 < now = 0`). -/
theorem C2_witness :
    verify_refresh_token
      (fun _ => .ok ⟨"AuthCore", 0, 0, some "4194304", none, "42"⟩)
      [⟨1, 4194304, .refresh, "42", -5⟩] "t" (SNOWFLAKE_EPOCH + 1) 0
      = some (.error .tokenExpired) :=
  (C2_expiry_is_second_step.2.1 _ [⟨1, 4194304, .refresh, "42", -5⟩] "t"
    (SNOWFLAKE_EPOCH + 1) 0
    ⟨"AuthCore", 0, 0, some "4194304", none, "42"⟩ "4194304" 4194304
    ⟨1, 4194304, .refresh, "42", -5⟩
    rfl rfl (by decide) (by decide)).1 (by decide)

/-! ### Claim theorems: login -/

/-- C5: when the application and the user both resolve, a missing password
credential and a failing password check produce the same
`WrongCredentials` error — in particular the two outcomes are equal, so
the caller cannot distinguish them. -/
theorem C5_uniform_wrong_credentials :
    ∀ (verify_password : String → String → Bool)
      (totpVerify : String → Bool) (update_ok : Bool)
      (password : String) (totp_code : Option String),
    (∀ user : LoginUser, user.basic_auth = none →
      with_basic_auth (.ok ()) (.ok user) verify_password totpVerify
        update_ok password totp_code = .error .wrongCredentials) ∧
    (∀ (user : LoginUser) (auth : BasicAuthRec),
      user.basic_auth = some auth →
      verify_password password auth.password_hash = false →
      with_basic_auth (.ok ()) (.ok user) verify_password totpVerify
        update_ok password totp_code = .error .wrongCredentials) ∧
    (∀ (u1 u2 : LoginUser) (auth : BasicAuthRec),
      u1.basic_auth = none → u2.basic_auth = some auth →
      verify_password password auth.password_hash = false →
      with_basic_auth (.ok ()) (.ok u1) verify_password totpVerify
          update_ok password totp_code =
        with_basic_auth (.ok ()) (.ok u2) verify_password totpVerify
          update_ok password totp_code) := by
  intro verify_password totpVerify update_ok password totp_code
  have hnone : ∀ user : LoginUser, user.basic_auth = none →
      with_basic_auth (.ok ()) (.ok user) verify_password totpVerify
        update_ok password totp_code = .error .wrongCredentials := by
    intro user h
    unfold with_basic_auth
    simp only []
    rw [h]
  have hwrong : ∀ (user : LoginUser) (auth : BasicAuthRec),
      user.basic_auth = some auth →
      verify_password password auth.password_hash = false →
      with_basic_auth (.ok ()) (.ok user) verify_password totpVerify
        update_ok password totp_code = .error .wrongCredentials := by
    intro user auth h hv
    unfold with_basic_auth
    simp only []
    rw [h]
    simp [hv]
  refine ⟨hnone, hwrong, ?_⟩
  intro u1 u2 auth h1 h2 hv
  rw [hnone u1 h1, hwrong u2 auth h2 hv]

/-- Witness for C5 at concrete inputs: a user with no credential and a user
whose stored hash never verifies. -/
theorem C5_witness :
    with_basic_auth (.ok ()) (.ok ⟨1, none, none⟩)
      (fun _ _ => false) (fun _ => true) true "pw" none
      = .error .wrongCredentials ∧
    with_basic_auth (.ok ()) (.ok ⟨2, some ⟨"hash"⟩, none⟩)
      (fun _ _ => false) (fun _ => true) true "pw" none
      = .error .wrongCredentials := by
  constructor
  · exact (C5_uniform_wrong_credentials (fun _ _ => false) (fun _ => true)
      true "pw" none).1 ⟨1, none, none⟩ rfl
  · exact (C5_uniform_wrong_credentials (fun _ _ => false) (fun _ => true)
      true "pw" none).2.1 ⟨2, some ⟨"hash"⟩, none⟩ ⟨"hash"⟩ rfl rfl

/-! ### HOTP/TOTP lemmas -/

theorem sha1_length (msg : List Nat) : (sha1 msg).length = 20 := by
  simp [sha1, toBytesBE4]

theorem hmacSha1_length (key msg : List Nat) :
    (hmacSha1 key msg).length = 20 := by
  simp [hmacSha1, sha1_length]

theorem get?_eq_some_getD {l : List Nat} {n : Nat} (h : n < l.length) :
    l.get? n = some (l.getD n 0) := by
  rw [List.getD_eq_get?, List.get?_eq_get h]
  rfl

/-- `generate_hotp` never hits an out-of-bounds panic: the HMAC output has
20 bytes, the dynamic-truncation offset is at most 15, so all indexed reads
are in bounds and the result is always `some` of the total `hotp_code`. -/
theorem generate_hotp_eq (secret : List Nat) (counter : Nat) :
    generate_hotp secret counter = some (hotp_code secret counter) := by
  unfold generate_hotp hotp_code
  have hlen : (hmacSha1 secret (toBytesBE8 (counter % U64))).length = 20 :=
    hmacSha1_length _ _
  set result := hmacSha1 secret (toBytesBE8 (counter % U64)) with hres
  have hget : ∀ m : Nat, m < 20 → result.get? m = some (result.getD m 0) :=
    fun m hm => get?_eq_some_getD (by omega)
  have hoff : (result.getD 19 0) &&& 15 ≤ 15 := Nat.and_le_right
  simp only [hget 19 (by omega),
    hget ((result.getD 19 0) &&& 15) (by omega),
    hget (((result.getD 19 0) &&& 15) + 1) (by omega),
    hget (((result.getD 19 0) &&& 15) + 2) (by omega),
    hget (((result.getD 19 0) &&& 15) + 3) (by omega)]

theorem decDigitsAux_length_le :
    ∀ (k : Nat), 1 ≤ k → ∀ (fuel n : Nat), n < fuel → n < 10 ^ k →
      (decDigitsAux fuel n).length ≤ k := by
  intro k
  induction k with
  | zero => omega
  | succ k ih =>
    intro _ fuel n hfuel hn
    cases fuel with
    | zero => omega
    | succ f =>
      rw [decDigitsAux]
      by_cases h : n < 10
      · rw [if_pos h]
        simp
      · rw [if_neg h]
        have hk : 1 ≤ k := by
          by_contra hk0
          have hk0' : k = 0 := by omega
          subst hk0'
          simp at hn
          omega
        have hdiv10 : n / 10 < 10 ^ k := by
          rw [Nat.div_lt_iff_lt_mul (by omega)]
          calc n < 10 ^ (k + 1) := hn
            _ = 10 ^ k * 10 := by ring
        have hfd : n / 10 < f := by
          have h1 : n / 10 < n := Nat.div_lt_self (by omega) (by omega)
          omega
        have := ih hk f (n / 10) hfd hdiv10
        simp
        omega

theorem digitChar_isDigit : ∀ d : Nat, d < 10 →
    (Char.ofNat (48 + d)).isDigit = true := by
  intro d hd
  interval_cases d <;> decide

theorem decDigitsAux_all :
    ∀ (fuel n : Nat), n < fuel →
      (decDigitsAux fuel n).all Char.isDigit = true := by
  intro fuel
  induction fuel with
  | zero => omega
  | succ f ih =>
    intro n hn
    rw [decDigitsAux]
    by_cases h : n < 10
    · rw [if_pos h]
      simp [digitChar_isDigit n h]
    · rw [if_neg h]
      simp only [List.all_append]
      have hfd : n / 10 < f := by
        have h1 : n / 10 < n := Nat.div_lt_self (by omega) (by omega)
        omega
      rw [ih (n / 10) hfd]
      simp [digitChar_isDigit (n % 10) (Nat.mod_lt n (by omega))]

theorem format6_length (n : Nat) (h : n < 1000000) :
    (format6 n).length = 6 := by
  have h6 : (decDigits n).length ≤ 6 :=
    decDigitsAux_length_le 6 (by omega) (n + 1) n (by omega) (by omega)
  simp [format6]
  omega

theorem format6_all (n : Nat) : (format6 n).all Char.isDigit = true := by
  simp only [format6, List.all_append]
  rw [show decDigits n = decDigitsAux (n + 1) n from rfl]
  rw [decDigitsAux_all (n + 1) n (by omega)]
  have hrep : ∀ k : Nat, (List.replicate k '0').all Char.isDigit = true := by
    intro k
    simp [List.all_eq_true, List.mem_replicate]
  rw [hrep]
  decide

theorem verify_loop_eq (secret : List Nat) (input : List Char) :
    ∀ l : List Nat, verify_loop secret input l =
      some (l.any (fun i => decide (input = hotp_code secret i))) := by
  intro l
  induction l with
  | nil => rfl
  | cons i rest ih =>
    rw [verify_loop, generate_hotp_eq]
    simp only []
    by_cases h : input = hotp_code secret i
    · simp [h]
    · simp only [if_neg h, ih, List.any_cons]
      simp [h]

theorem mem_totp_window {counter tol i : Nat} :
    i ∈ totp_window counter tol ↔
      counter - tol ≤ i ∧ i ≤ (counter + tol) % U64 := by
  simp only [totp_window, List.mem_map, List.mem_range]
  generalize (counter + tol) % U64 = hi
  constructor
  · rintro ⟨k, hk, rfl⟩
    omega
  · rintro ⟨h1, h2⟩
    exact ⟨i - (counter - tol), by omega, by omega⟩

/-- With a decodable secret and a nonzero interval, `verify_totp` is the
window scan over expected codes. -/
theorem verify_totp_eq (input secret : List Char) (bytes : List Nat)
    (interval tol now : Nat)
    (hdec : base32_decode secret = some bytes) (hint : interval ≠ 0) :
    verify_totp input secret interval (some tol) now =
      some (.ok ((totp_window (now / interval) tol).any
        (fun i => decide (input = hotp_code bytes i)))) := by
  unfold verify_totp
  rw [hdec]
  simp only [if_neg hint, Option.getD_some]
  rw [verify_loop_eq]

/-! ### Claim theorems: TOTP crypto -/

/-- C9: `generate_hotp` always returns `some` code — the 20-byte HMAC output
together with the 4-bit offset keeps every indexed read in bounds — and the
code is exactly six decimal digits (the truncated value reduced modulo
1 000 000 and zero-padded). -/
theorem C9_hotp_always_six_digits :
    ∀ (secret : List Nat) (counter : Nat),
      generate_hotp secret counter = some (hotp_code secret counter) ∧
      (hotp_code secret counter).length = 6 ∧
      (hotp_code secret counter).all Char.isDigit = true ∧
      (hmacSha1 secret (toBytesBE8 (counter % U64))).getD 19 0 &&& 15 ≤ 15 ∧
      (hmacSha1 secret (toBytesBE8 (counter % U64))).length = 20 := by
  intro secret counter
  refine ⟨generate_hotp_eq _ _, ?_, ?_, Nat.and_le_right, hmacSha1_length _ _⟩
  · exact format6_length _ (Nat.mod_lt _ (by omega))
  · exact format6_all _

/-- C8: with a secret that decodes and `interval = 0`, both `generate_totp`
and `verify_totp` reach the unguarded division by the interval and panic
(modelled as `none`) instead of returning their declared error type, whose
only variant reports an invalid secret. -/
theorem C8_interval_zero_division_panic :
    ∀ (secret : List Char) (bytes : List Nat) (input : List Char)
      (tol : Option Nat) (now : Nat),
      base32_decode secret = some bytes →
      generate_totp secret 0 now = none ∧
      verify_totp input secret 0 tol now = none ∧
      (∀ e : TotpError, e = .invalidSecret) := by
  intro secret bytes input tol now hdec
  refine ⟨?_, ?_, ?_⟩
  · simp [generate_totp, hdec]
  · simp [verify_totp, hdec]
  · intro e
    cases e
    rfl

/-- Witness for C8 at a concrete input: the secret `"AAAA"` decodes to two
zero bytes, and both functions panic at interval 0. -/
theorem C8_witness :
    generate_totp "AAAA".data 0 5 = none ∧
    verify_totp "123456".data "AAAA".data 0 (some 1) 5 = none := by
  have h := C8_interval_zero_division_panic "AAAA".data [0, 0] "123456".data
    (some 1) 5 (by decide)
  exact ⟨h.1, h.2.1⟩

/-- C6, amended: with a decodable secret and nonzero interval,
`verify_totp` accepts exactly when the input equals the expected code of
some counter in the inclusive window from `now/interval - t` (saturating
`u64` subtraction) to `(now/interval + t) mod 2^64` (the `u64` addition
wraps, so an overflowing tolerance shrinks or empties the window); when
`now/interval + t` does not overflow this is the plain window
`[now/interval - t, now/interval + t]` of the claim.  Hence, absent
overflow, a code generated for counter `c` verifies with tolerance 1
whenever the verifying counter lies in `[c - 1, c + 1]`; it fails for a
verifying counter outside that range provided the six-digit code of `c`
does not collide with the code of any counter in the shifted window — the
collision proviso is necessary, see `C6_counterexample`. -/
theorem C6_totp_window_characterization :
    ∀ (secret : List Char) (bytes : List Nat) (input : List Char)
      (interval tol now : Nat),
      base32_decode secret = some bytes → interval ≠ 0 →
      ((verify_totp input secret interval (some tol) now = some (.ok true)) ↔
        ∃ i, now / interval - tol ≤ i ∧
          i ≤ (now / interval + tol) % U64 ∧
          input = hotp_code bytes i) ∧
      (now / interval + tol < U64 →
        ((verify_totp input secret interval (some tol) now =
            some (.ok true)) ↔
          ∃ i, now / interval - tol ≤ i ∧ i ≤ now / interval + tol ∧
            input = hotp_code bytes i)) ∧
      (∀ c, now / interval + 1 < U64 → now / interval ≤ c + 1 →
        c ≤ now / interval + 1 →
        verify_totp (hotp_code bytes c) secret interval (some 1) now =
          some (.ok true)) ∧
      (∀ c, now / interval + 1 < U64 →
        (∀ i, now / interval - 1 ≤ i → i ≤ now / interval + 1 →
          hotp_code bytes i ≠ hotp_code bytes c) →
        verify_totp (hotp_code bytes c) secret interval (some 1) now =
          some (.ok false)) := by
  intro secret bytes input interval tol now hdec hint
  have hiff : ∀ (inp : List Char) (tl : Nat),
      (verify_totp inp secret interval (some tl) now = some (.ok true)) ↔
        ∃ i, now / interval - tl ≤ i ∧
          i ≤ (now / interval + tl) % U64 ∧
          inp = hotp_code bytes i := by
    intro inp tl
    rw [verify_totp_eq inp secret bytes interval tl now hdec hint]
    constructor
    · intro h
      have hb : (totp_window (now / interval) tl).any
          (fun i => decide (inp = hotp_code bytes i)) = true := by
        simpa using h
      rw [List.any_eq_true] at hb
      obtain ⟨i, hi, hd⟩ := hb
      rw [mem_totp_window] at hi
      exact ⟨i, hi.1, hi.2, of_decide_eq_true hd⟩
    · rintro ⟨i, h1, h2, heq⟩
      have hb : (totp_window (now / interval) tl).any
          (fun i => decide (inp = hotp_code bytes i)) = true :=
        List.any_eq_true.mpr ⟨i, mem_totp_window.mpr ⟨h1, h2⟩,
          decide_eq_true heq⟩
      rw [hb]
  refine ⟨hiff input tol, ?_, ?_, ?_⟩
  · intro hov
    rw [hiff input tol, Nat.mod_eq_of_lt hov]
  · intro c hov h1 h2
    refine (hiff (hotp_code bytes c) 1).mpr ⟨c, by omega, ?_, rfl⟩
    rw [Nat.mod_eq_of_lt hov]
    exact h2
  · intro c hov hnone
    rw [verify_totp_eq _ secret bytes interval 1 now hdec hint]
    have hb : (totp_window (now / interval) 1).any
        (fun i => decide (hotp_code bytes c = hotp_code bytes i)) = false := by
      rw [List.any_eq_false]
      intro i hi
      rw [mem_totp_window, Nat.mod_eq_of_lt hov] at hi
      simp only [decide_eq_true_eq]
      intro heq
      exact hnone i hi.1 hi.2 heq.symm
    rw [hb]

/-- Witness for C6 at a concrete input: with the RFC 4226 test secret, the
code of counter 3 verifies while the clock sits in counter 2
(`60 / 30 = 2`, window `[1, 3]`). -/
theorem C6_witness :
    verify_totp
      (hotp_code [49, 50, 51, 52, 53, 54, 55, 56, 57, 48, 49, 50, 51, 52, 53,
        54, 55, 56, 57, 48] 3)
      "GEZDGNBVGY3TQOJQGEZDGNBVGY3TQOJQ".data 30 (some 1) 60
      = some (.ok true) :=
  (C6_totp_window_characterization "GEZDGNBVGY3TQOJQGEZDGNBVGY3TQOJQ".data
    [49, 50, 51, 52, 53, 54, 55, 56, 57, 48, 49, 50, 51, 52, 53, 54, 55, 56,
      57, 48] [] 30 1 60 (by decide) (by decide)).2.2.1 3 (by decide)
    (by decide) (by decide)

set_option maxRecDepth 100000 in
/-- C6, counterexample: for the RFC 4226 test secret, the code generated for
counter `c = 103427` (time `3102810 = c * 30`) is `746629`, and the code of
counter `103424 = c - 3` collides with it; so verification with tolerance 1
at verifying counter `c - 2` (`3102750 / 30 = 103425`, window
`[103424, 103426]`) returns `true`, refuting the claim that a code generated
for counter `c` always fails to verify when the verifying counter is
`c - 2`. -/
theorem C6_counterexample :
    generate_totp "GEZDGNBVGY3TQOJQGEZDGNBVGY3TQOJQ".data 30 3102810
      = some (.ok "746629".data) ∧
    verify_totp "746629".data "GEZDGNBVGY3TQOJQGEZDGNBVGY3TQOJQ".data 30
      (some 1) 3102750 = some (.ok true) := by
  constructor
  · decide
  · decide

theorem consumed_iff {db : List TOTPBackupCode} {s : String} :
    consumed db s = true ↔ ∀ c ∈ db, c.code = s → c.expired = true := by
  simp only [consumed, List.all_eq_true]
  constructor
  · intro h c hc hcode
    have := h c hc
    simp [hcode] at this
    exact this
  · intro h c hc
    by_cases hcs : c.code = s
    · simp [hcs, h c hc hcs]
    · simp [hcs]

theorem consumed_expire_of_unique {codes : List TOTPBackupCode} {s : String}
    {id0 : Nat} (h : ∀ c ∈ codes, c.code = s → c.id = id0) :
    consumed (expire_a_backup_code codes id0) s = true := by
  rw [consumed_iff]
  intro c hc hcode
  simp only [expire_a_backup_code, List.mem_map] at hc
  obtain ⟨orig, horig, rfl⟩ := hc
  by_cases hid : orig.id = id0
  · simp [hid]
  · simp only [if_neg hid] at hcode ⊢
    exact absurd (h orig horig hcode) hid

theorem consumed_expire_mono {codes : List TOTPBackupCode} {s : String}
    {id0 : Nat} (h : consumed codes s = true) :
    consumed (expire_a_backup_code codes id0) s = true := by
  rw [consumed_iff] at h ⊢
  intro c hc hcode
  simp only [expire_a_backup_code, List.mem_map] at hc
  obtain ⟨orig, horig, rfl⟩ := hc
  by_cases hid : orig.id = id0
  · simp [hid]
  · simp only [if_neg hid] at hcode ⊢
    exact h orig horig hcode


/-! ### Claim theorems: backup codes -/

/-- C4: a first verification of an unexpired backup code (a string
containing `'-'`, unique to its record) succeeds and marks the code
expired in storage; consumption is preserved by arbitrary later
verification calls (`TOTP::expire_a_backup_code` only sets the flag), and
any later verification of the same code against a state in which it is
consumed returns `false` and leaves the state unchanged. -/
theorem C4_backup_code_single_use :
    ∀ (st : TotpStorage) (r : TotpRow) (bc : TOTPBackupCode) (now : Nat),
      st.row = some r → bc ∈ st.codes → bc.expired = false →
      bc.code.data.contains '-' = true →
      (∀ c ∈ st.codes, c.code = bc.code → c.id = bc.id) →
      (verify_call st bc.code now =
        some (.ok (true, ⟨st.row, expire_a_backup_code st.codes bc.id⟩)) ∧
       consumed (expire_a_backup_code st.codes bc.id) bc.code = true) ∧
      (∀ (st2 : TotpStorage) (s code2 : String) (now2 : Nat) (b : Bool)
        (st3 : TotpStorage),
        consumed st2.codes s = true →
        verify_call st2 code2 now2 = some (.ok (b, st3)) →
        consumed st3.codes s = true) ∧
      (∀ (st2 : TotpStorage) (r2 : TotpRow) (s : String) (now2 : Nat),
        st2.row = some r2 → s.data.contains '-' = true →
        consumed st2.codes s = true →
        verify_call st2 s now2 = some (.ok (false, st2))) := by
  intro st r bc now hrow hmem hexp hcontains huniq
  refine ⟨⟨?_, consumed_expire_of_unique huniq⟩, ?_, ?_⟩
  · unfold verify_call TOTP.get
    rw [hrow]
    simp only []
    unfold TOTP.verify
    simp only [hcontains, if_true]
    have hbcmem : bc ∈ st.codes.filter (fun c => !c.expired) :=
      List.mem_filter.mpr ⟨hmem, by simp [hexp]⟩
    cases hfind : (st.codes.filter (fun c => !c.expired)).find?
        (fun x => x.code == bc.code) with
    | none =>
      exfalso
      have := List.find?_eq_none.mp hfind bc hbcmem
      simp at this
    | some bc' =>
      have hpred := List.find?_some hfind
      have hmemf := List.mem_of_find?_eq_some hfind
      have hcode' : bc'.code = bc.code := by simpa using hpred
      have hexp' : bc'.expired = false := by
        have := (List.mem_filter.mp hmemf).2
        simpa using this
      have hid' : bc'.id = bc.id :=
        huniq bc' (List.mem_filter.mp hmemf).1 hcode'
      simp only [hfind, hexp', if_false, Bool.false_eq_true, hid', hrow]
  · intro st2 s code2 now2 b st3 hcons hcall
    unfold verify_call TOTP.get at hcall
    cases hrow2 : st2.row with
    | none =>
      rw [hrow2] at hcall
      simp at hcall
    | some r2 =>
      rw [hrow2] at hcall
      simp only [] at hcall
      unfold TOTP.verify at hcall
      by_cases hc : code2.data.contains '-'
      · simp only [hc, if_true] at hcall
        cases hfind : (st2.codes.filter (fun c => !c.expired)).find?
            (fun x => x.code == code2) with
        | none =>
          rw [hfind] at hcall
          simp only [Option.some.injEq, Except.ok.injEq,
            Prod.mk.injEq] at hcall
          rw [← hcall.2]
          exact hcons
        | some bc' =>
          rw [hfind] at hcall
          cases hbe : bc'.expired with
          | true =>
            simp only [hbe, if_true, Option.some.injEq, Except.ok.injEq,
              Prod.mk.injEq] at hcall
            rw [← hcall.2]
            exact hcons
          | false =>
            simp only [hbe, if_false, Bool.false_eq_true, Option.some.injEq,
              Except.ok.injEq, Prod.mk.injEq] at hcall
            rw [← hcall.2]
            exact consumed_expire_mono hcons
      · simp only [hc, if_false, Bool.false_eq_true] at hcall
        cases hv : verify_totp code2.data r2.secret.data r2.interval
            (some 1) now2 with
        | none =>
          rw [hv] at hcall
          simp at hcall
        | some rr =>
          rw [hv] at hcall
          simp only [Option.some.injEq, Except.ok.injEq,
            Prod.mk.injEq] at hcall
          rw [← hcall.2]
          exact hcons
  · intro st2 r2 s now2 hrow2 hcs hcons
    unfold verify_call TOTP.get
    rw [hrow2]
    simp only []
    unfold TOTP.verify
    simp only [hcs, if_true]
    have hfind : (st2.codes.filter (fun c => !c.expired)).find?
        (fun x => x.code == s) = none := by
      rw [List.find?_eq_none]
      intro x hx
      have hxmem := (List.mem_filter.mp hx).1
      have hxunexp : x.expired = false := by
        have := (List.mem_filter.mp hx).2
        simpa using this
      intro hpx
      have hxcode : x.code = s := by simpa using hpx
      have := (consumed_iff.mp hcons) x hxmem hxcode
      rw [this] at hxunexp
      cases hxunexp
    rw [hfind]
    simp only []
    rw [← hrow2]


/-- Witness for C4 at a concrete input: one backup code `"AB-CD"`; the
first call succeeds and expires it, the second call fails. -/
theorem C4_witness :
    verify_call ⟨some ⟨"sec", 30⟩, [⟨1, "AB-CD", false⟩]⟩ "AB-CD" 0 =
      some (.ok (true, ⟨some ⟨"sec", 30⟩, [⟨1, "AB-CD", true⟩]⟩)) ∧
    verify_call ⟨some ⟨"sec", 30⟩, [⟨1, "AB-CD", true⟩]⟩ "AB-CD" 0 =
      some (.ok (false, ⟨some ⟨"sec", 30⟩, [⟨1, "AB-CD", true⟩]⟩)) := by
  have h := C4_backup_code_single_use
    ⟨some ⟨"sec", 30⟩, [⟨1, "AB-CD", false⟩]⟩ ⟨"sec", 30⟩
    ⟨1, "AB-CD", false⟩ 0 rfl (by simp) rfl (by decide)
    (by
      intro c hc hcode
      have hcb : c = ⟨1, "AB-CD", false⟩ := by simpa using hc
      subst hcb
      rfl)
  constructor
  · exact h.1.1
  · exact h.2.2 ⟨some ⟨"sec", 30⟩, [⟨1, "AB-CD", true⟩]⟩ ⟨"sec", 30⟩
      "AB-CD" 0 rfl (by decide) (by decide)

end Auth
